/-
Verification of the Visa-Stay core algorithms: the Schengen 90/180-day
rolling-window day accounting (src/lib/date.ts) and the visa-rule cache
gateway (the visa API service module).

Modelling conventions:
* Calendar dates are modelled at local-day granularity, as required by the
  spec's Day notion: a date is an integer day index in the proleptic
  Gregorian calendar (`daysFromCivil`).  The source parses "YYYY-MM-DD"
  strings to local-midnight `Date`s and keys sets by the "YYYY-MM-DD"
  string; both representations are in bijection with day indices, and
  consecutive calendar days map to consecutive integers.
* Timestamps for the cache are integers in milliseconds, matching the
  millisecond arithmetic of JavaScript `Date` comparisons.
* The country name→code table is an external collaborator (an imported
  static mapping, supplied by the surrounding application); it is modelled
  as an explicit association-list parameter in insertion order, mirroring
  `Object.entries` iteration order.
* The asynchronous gateway is single-threaded per invocation (read cache →
  external call → write cache, awaited sequentially), so it is embedded as
  a pure state-passing function; the outcome records the number of external
  calls and of cache upsert attempts issued on the executed path.
-/
import Mathlib

namespace VisaStay

/-- Day index of a proleptic-Gregorian civil date (days since 1970-01-01),
the standard civil-from-days correspondence.  JavaScript `Date` local-day
arithmetic (`setDate`, day differences of local midnights) agrees with this
indexing. -/
def daysFromCivil (y m d : Int) : Int :=
  let y' := if m ≤ 2 then y - 1 else y
  let era := y' / 400
  let yoe := y' - era * 400
  let mp := if m > 2 then m - 3 else m + 9
  let doy := (153 * mp + 2) / 5 + d - 1
  let doe := yoe * 365 + yoe / 4 - yoe / 100 + doy
  era * 146097 + doe - 719468

/-! ## Schengen accountant (src/lib/date.ts) -/

/-- One user trip segment, as consumed by `calculateSchengenDaysUsed`:
`{ startDate: string; endDate?: string; isSchengen: boolean }`, with the
date strings already parsed to local-day indices
(`parseDateInputToLocalDayStart`). -/
structure Trip where
  startDate : Int
  endDate : Option Int
  isSchengen : Bool
  deriving Repr, DecidableEq

/-- The set of day keys one Schengen trip inserts into `daysSet` in the loop
body of `calculateSchengenDaysUsed`: effective end is `endDate` when present
else the reference day (`ref`); trips not overlapping the window
`[ref - 179, ref]` are skipped (`continue`); otherwise every day from
`max tripStart windowStart` to `min tripEnd ref` is marked.  An empty
`Finset.Icc` corresponds to the `while` loop body never running. -/
def tripDaysInWindow (ref : Int) (t : Trip) : Finset Int :=
  let tripStart := t.startDate
  let tripEnd := t.endDate.getD ref
  let windowStart := ref - 179
  if tripEnd < windowStart ∨ tripStart > ref then ∅
  else Finset.Icc (max tripStart windowStart) (min tripEnd ref)

/-- Source `calculateSchengenDaysUsed`: filter to Schengen trips, return 0 when none,
else mark each in-window day of each trip in a day-keyed set and return the
set's size. -/
def calculateSchengenDaysUsed (trips : List Trip) (ref : Int) : Nat :=
  let schengenTrips := trips.filter (fun t => t.isSchengen)
  if schengenTrips.isEmpty then 0
  else (schengenTrips.foldl (fun s t => s ∪ tripDaysInWindow ref t) ∅).card

/-- Source `calculateRemainingSchengenDays`: `Math.max(0, 90 - used)`. -/
def calculateRemainingSchengenDays (trips : List Trip) (ref : Int) : Int :=
  let used : Int := calculateSchengenDaysUsed trips ref
  max 0 (90 - used)

/-- Specification-side description for claim C1: the distinct calendar dates
of the closed window `[ref - 179, ref]` covered by at least one
Schengen-flagged trip's interval `[startDate, endDate-or-ref]`. -/
def coveredDates (trips : List Trip) (ref : Int) : Finset Int :=
  (Finset.Icc (ref - 179) ref).filter fun d =>
    trips.any fun t =>
      t.isSchengen && decide (t.startDate ≤ d) && decide (d ≤ t.endDate.getD ref)

/-! ## Regular-visa remaining days (src/lib/date.ts) -/

/-- Source `daysBetween`: `Math.ceil((end - start) / 86400000)` on millisecond
timestamps; at whole-day granularity (both arguments local midnights,
measured in day indices) the quotient is an exact integer and the ceiling is
the plain difference. -/
def daysBetween (startDate endDate : Int) : Int :=
  endDate - startDate

/-- Digit run to a number, as `parseInt` on the captured digits. -/
def digitsToNat (ds : List Char) : Nat :=
  ds.foldl (fun n c => n * 10 + (c.toNat - '0'.toNat)) 0

/-- Attempt of the regex `/(\d+)\s*(day|days|month|months)/i` at one position:
a nonempty maximal digit run, then whitespace, then a unit word
(case-insensitively).  Returns the parsed amount and whether the captured
unit contains "month" (`unit.includes('month')`).  Greedy `\d+`/`\s*` need no
backtracking here: shortening the digit run leaves a digit next, which can
start no unit word, and shortening the space run leaves whitespace next. -/
def durationMatchAt (cs : List Char) : Option (Nat × Bool) :=
  match cs.span Char.isDigit with
  | ([], _) => none
  | (ds, rest) =>
    let rest' := (rest.dropWhile Char.isWhitespace).map Char.toLower
    if List.isPrefixOf "month".data rest' then some (digitsToNat ds, true)
    else if List.isPrefixOf "day".data rest' then some (digitsToNat ds, false)
    else none

/-- Leftmost match of the duration pattern, as `String.prototype.match` with a
non-anchored regex: try each start position left to right. -/
def findDurationMatch : List Char → Option (Nat × Bool)
  | [] => none
  | c :: cs =>
    match durationMatchAt (c :: cs) with
    | some r => some r
    | none => findDurationMatch cs

/-- Source `calculateRemainingDays(startDate, duration)` with the ambient `today`
made explicit.  A missing (or empty, hence unmatchable) duration yields
`null`; months are approximated as 30 days; `end = start + totalDays`;
expired → 0, not started → full allowance, else `daysBetween(today, end)`. -/
def calculateRemainingDays (startDate : Int) (duration : Option String)
    (today : Int) : Option Int :=
  match duration with
  | none => none
  | some dur =>
    match findDurationMatch dur.data with
    | none => none
    | some (amount, isMonth) =>
      let totalDays : Int := if isMonth then (amount : Int) * 30 else (amount : Int)
      let endDay := startDate + totalDays
      if today > endDay then some 0
      else if today < startDate then some totalDays
      else some (daysBetween today endDay)

/-! ## Country-name resolution (visa API service module) -/

/-- JavaScript `haystack.includes(needle)` on character sequences (JavaScript strings
are character sequences; the argument order here is needle first): some
suffix of the haystack starts with the needle. -/
def listIncludes (needle : List Char) : List Char → Bool
  | [] => needle.isEmpty
  | c :: cs => List.isPrefixOf needle (c :: cs) || listIncludes needle cs

/-- JavaScript `s.split(sep)` for a one-character separator, on character sequences. -/
def jsSplit (sep : Char) : List Char → List (List Char)
  | [] => [[]]
  | c :: cs =>
    let r := jsSplit sep cs
    if c == sep then [] :: r
    else
      match r with
      | [] => [[c]]
      | seg :: rest => (c :: seg) :: rest

/-- JavaScript `s.trim()`: strip leading and trailing whitespace. -/
def jsTrim (l : List Char) : List Char :=
  ((l.dropWhile Char.isWhitespace).reverse.dropWhile Char.isWhitespace).reverse

/-- JavaScript `s.toLowerCase()` (ASCII range, which covers the table's names). -/
def jsToLower (l : List Char) : List Char :=
  l.map Char.toLower

/-- Lookup `countryNameToCode[name]`: exact-key lookup in the table (the first entry
with that key — a JavaScript object's keys are unique). -/
def lookupCode (table : List (String × String)) (name : List Char) :
    Option String :=
  (table.find? fun p => p.1.data == name).map fun p => p.2

/-- Source `getCountryCode`: direct lookup; else lookup of the trimmed segment after
the last comma (only when a comma is present); else the first table entry
whose name matches case-insensitively (equality, or substring containment in
either direction); else the input's first two characters uppercased.  The
`if (countryNameToCode[...])` truthiness gates of the source are the
`Option.filter` of a non-empty code. -/
def getCountryCode (table : List (String × String)) (countryName : String) :
    String :=
  match (lookupCode table countryName.data).filter (fun c => !c.data.isEmpty) with
  | some c => c
  | none =>
    let parts := jsSplit ',' countryName.data
    let commaHit :=
      if parts.length > 1 then
        (lookupCode table (jsTrim (parts.getLastD []))).filter
          (fun c => !c.data.isEmpty)
      else none
    match commaHit with
    | some c => c
    | none =>
      let lowerName := jsToLower countryName.data
      match table.find? (fun p =>
          jsToLower p.1.data == lowerName ||
          listIncludes lowerName (jsToLower p.1.data) ||
          listIncludes (jsToLower p.1.data) lowerName) with
      | some p => p.2
      | none => ⟨(countryName.data.take 2).map Char.toUpper⟩

/-- Specification-side description for claim C9: exact lookup; else exact
lookup of the tail segment after the last comma; else the first
case-insensitive substring match in either direction; else the first two
characters uppercased. -/
def resolveCountrySpec (table : List (String × String)) (countryName : String) :
    String :=
  match lookupCode table countryName.data with
  | some c => c
  | none =>
    let parts := jsSplit ',' countryName.data
    let commaHit :=
      if parts.length > 1 then lookupCode table (jsTrim (parts.getLastD []))
      else none
    match commaHit with
    | some c => c
    | none =>
      let lowerName := jsToLower countryName.data
      match table.find? (fun p =>
          listIncludes lowerName (jsToLower p.1.data) ||
          listIncludes (jsToLower p.1.data) lowerName) with
      | some p => p.2
      | none => ⟨(countryName.data.take 2).map Char.toUpper⟩

/-! ## Visa cache gateway (visa API service module)

The payload type `α` stands for the opaque `VisaCheckResponse` record: the
gateway stores and returns it verbatim without inspecting its shape (payload
values are JavaScript objects, hence truthy). -/

/-- One row of the `visa_cache` table. -/
structure CacheEntry (α : Type) where
  responseData : α
  cachedAt : Int
  expiresAt : Int
  deriving Repr, DecidableEq

/-- The shared `visa_cache` table: rows keyed by the compound key
`(passport_code, destination_code)`, key uniqueness enforced by the store. -/
def CacheStore (α : Type) : Type :=
  List ((String × String) × CacheEntry α)

/-- Read `select ... eq(passport_code).eq(destination_code).single()`. -/
def storeGet (st : CacheStore α) (p d : String) : Option (CacheEntry α) :=
  (st.find? fun r => r.1.1 == p && r.1.2 == d).map fun r => r.2

/-- Delete `delete().eq(passport_code).eq(destination_code)`. -/
def storeDelete (st : CacheStore α) (p d : String) : CacheStore α :=
  st.filter fun r => !(r.1.1 == p && r.1.2 == d)

/-- Upsert with `onConflict: 'passport_code,destination_code'`: replace
the row with this compound key, inserting when absent. -/
def storeUpsert (st : CacheStore α) (p d : String) (e : CacheEntry α) :
    CacheStore α :=
  ((p, d), e) :: storeDelete st p d

/-- Modelled from the spec: the 30-day fixed TTL that the storage layer's
trigger applies when assigning `expires_at` from `cached_at` (the trigger is
database-side and not among the repository sources; the source notes
"expires_at will be set automatically by the trigger").  In milliseconds. -/
def cacheTtlMs : Int := 30 * 24 * 60 * 60 * 1000

/-- Source `getCachedData`: read the row for the key; absent (or read error) →
`null`; present and `now >= expiresAt` → delete the row (eager eviction) and
return `null`; present and fresh → return the stored payload.  Returns the
result together with the store state after the call. -/
def getCachedData (now : Int) (st : CacheStore α) (p d : String) :
    Option α × CacheStore α :=
  match storeGet st p d with
  | none => (none, st)
  | some e =>
    if now ≥ e.expiresAt then (none, storeDelete st p d)
    else (some e.responseData, st)

/-- Source `setCachedData`: upsert the fresh payload with `cached_at = now`;
`expires_at` is assigned by the storage trigger (`cacheTtlMs`).  A storage
error (`writeOk = false`) is caught and logged, leaving the store unchanged
and raising nothing. -/
def setCachedData (now : Int) (writeOk : Bool) (st : CacheStore α)
    (p d : String) (data : α) : CacheStore α :=
  if writeOk then storeUpsert st p d ⟨data, now, now + cacheTtlMs⟩
  else st

/-- The distinguishable failures thrown by `checkVisaRequirements`, one per
distinct error message. -/
inductive CheckError where
  | configError
  | invalidApiKey
  | noData
  | invalidInput
  | apiError (status : Nat)
  deriving Repr, DecidableEq

/-- The `if/else` chain mapping a non-2xx HTTP status to its error message:
401 → invalid key, 404 → no data for the pair, 422 → invalid input, other →
generic API error carrying the status. -/
def mapHttpError (status : Nat) : CheckError :=
  if status = 401 then .invalidApiKey
  else if status = 404 then .noData
  else if status = 422 then .invalidInput
  else .apiError status

/-- Result of one external lookup call: a 2xx response with a parsed payload,
or a non-2xx response with its status code. -/
inductive ApiResult (α : Type) where
  | ok (payload : α)
  | httpError (status : Nat)
  deriving Repr, DecidableEq

/-- Outcome of one `checkVisaRequirements` invocation: the returned payload
or thrown error, the cache-store state afterwards, and how many external
lookup calls and cache upsert attempts the executed path issued. -/
structure CheckOutcome (α : Type) where
  result : Except CheckError α
  store : CacheStore α
  externalCalls : Nat
  upserts : Nat

/-- Source `checkVisaRequirements(passportCountry, destinationCountry)`: resolve
both names to codes, try the shared cache, and on a miss require the API key
(config error before any external call), invoke the external lookup once,
map non-2xx statuses to errors, and on success upsert the payload and return
it.  `external` is the HTTP-fetch collaborator, `now` the ambient clock,
`writeOk` whether the storage write succeeds. -/
def checkVisaRequirements (table : List (String × String))
    (apiKey : Option String) (external : String → String → ApiResult α)
    (now : Int) (writeOk : Bool) (st : CacheStore α)
    (passportCountry destinationCountry : String) : CheckOutcome α :=
  let passportCode := getCountryCode table passportCountry
  let destinationCode := getCountryCode table destinationCountry
  match getCachedData now st passportCode destinationCode with
  | (some cached, st') => ⟨.ok cached, st', 0, 0⟩
  | (none, st') =>
    match apiKey with
    | none => ⟨.error .configError, st', 0, 0⟩
    | some _ =>
      match external passportCode destinationCode with
      | .httpError status => ⟨.error (mapHttpError status), st', 1, 0⟩
      | .ok data =>
        ⟨.ok data, setCachedData now writeOk st' passportCode destinationCode data, 1, 1⟩

/-! ## Helper lemmas: Schengen accountant -/

lemma mem_tripDaysInWindow (ref : Int) (t : Trip) (d : Int) :
    d ∈ tripDaysInWindow ref t ↔
      t.startDate ≤ d ∧ d ≤ t.endDate.getD ref ∧ ref - 179 ≤ d ∧ d ≤ ref := by
  unfold tripDaysInWindow
  dsimp only
  split
  next h => simp only [Finset.not_mem_empty, false_iff]; omega
  next h => simp only [Finset.mem_Icc, max_le_iff, le_min_iff]; omega

lemma mem_foldUnion (ref : Int) (l : List Trip) (acc : Finset Int) (d : Int) :
    d ∈ l.foldl (fun s t => s ∪ tripDaysInWindow ref t) acc ↔
      d ∈ acc ∨ ∃ t ∈ l, d ∈ tripDaysInWindow ref t := by
  induction l generalizing acc with
  | nil => simp
  | cons t ts ih =>
    simp only [List.foldl_cons, ih, Finset.mem_union, List.mem_cons]
    constructor
    · rintro (⟨h | h⟩ | ⟨u, hu, hd⟩)
      · exact .inl h
      · exact .inr ⟨t, .inl rfl, h⟩
      · exact .inr ⟨u, .inr hu, hd⟩
    · rintro (h | ⟨u, rfl | hu, hd⟩)
      · exact .inl (.inl h)
      · exact .inl (.inr hd)
      · exact .inr ⟨u, hu, hd⟩

lemma daysUsed_eq_card (trips : List Trip) (ref : Int) :
    calculateSchengenDaysUsed trips ref =
      ((trips.filter fun t => t.isSchengen).foldl
        (fun s t => s ∪ tripDaysInWindow ref t) ∅).card := by
  unfold calculateSchengenDaysUsed
  dsimp only
  split
  next h =>
    rw [List.isEmpty_iff] at h
    rw [h]
    simp
  next h => rfl

lemma foldUnion_eq_coveredDates (trips : List Trip) (ref : Int) :
    ((trips.filter fun t => t.isSchengen).foldl
      (fun s t => s ∪ tripDaysInWindow ref t) ∅) = coveredDates trips ref := by
  ext d
  rw [mem_foldUnion]
  simp only [Finset.not_mem_empty, false_or, List.mem_filter,
    mem_tripDaysInWindow, coveredDates, Finset.mem_filter, Finset.mem_Icc,
    List.any_eq_true, Bool.and_eq_true, decide_eq_true_eq]
  constructor
  · rintro ⟨t, ⟨ht, hs⟩, h1, h2, h3, h4⟩
    exact ⟨⟨h3, h4⟩, t, ht, ⟨hs, h1⟩, h2⟩
  · rintro ⟨⟨h3, h4⟩, t, ht, ⟨hs, h1⟩, h2⟩
    exact ⟨t, ⟨ht, hs⟩, h1, h2, h3, h4⟩

lemma daysUsed_eq_coveredDates_card (trips : List Trip) (ref : Int) :
    calculateSchengenDaysUsed trips ref = (coveredDates trips ref).card := by
  rw [daysUsed_eq_card, foldUnion_eq_coveredDates]

/-! ## Claims C1, C5, C6, C7: Schengen accountant -/

/-- C1: for every trip list and reference date, `calculateSchengenDaysUsed`
equals the number of distinct calendar dates covered by the union of the
Schengen-flagged trips' intervals clipped to the closed 180-day window
`[referenceDate - 179, referenceDate]`; consequently the result (a natural
number, hence ≥ 0) is at most 180, and adding a fully-overlapping duplicate
of a Schengen trip already in the list never changes the result. -/
theorem claim_C1_daysUsed_union_count (trips : List Trip) (ref : Int) :
    calculateSchengenDaysUsed trips ref = (coveredDates trips ref).card ∧
    calculateSchengenDaysUsed trips ref ≤ 180 ∧
    ∀ t ∈ trips, t.isSchengen = true →
      calculateSchengenDaysUsed (t :: trips) ref =
        calculateSchengenDaysUsed trips ref := by
  refine ⟨daysUsed_eq_coveredDates_card trips ref, ?_, ?_⟩
  · rw [daysUsed_eq_coveredDates_card]
    calc (coveredDates trips ref).card
        ≤ (Finset.Icc (ref - 179) ref).card := Finset.card_filter_le _ _
      _ = 180 := by rw [Int.card_Icc]; omega
  · intro t ht hs
    rw [daysUsed_eq_card, daysUsed_eq_card]
    congr 1
    ext d
    rw [mem_foldUnion, mem_foldUnion]
    simp only [Finset.not_mem_empty, false_or, List.mem_filter, List.mem_cons]
    constructor
    · rintro ⟨u, ⟨hu | hu, hsu⟩, hd⟩
      · exact ⟨u, ⟨hu ▸ ht, hsu⟩, hd⟩
      · exact ⟨u, ⟨hu, hsu⟩, hd⟩
    · rintro ⟨u, ⟨hu, hsu⟩, hd⟩
      exact ⟨u, ⟨.inr hu, hsu⟩, hd⟩

/-- Witness for C1 at spec Scenario B: two overlapping Schengen trips
2024-02-01..02-10 and 2024-02-05..02-20 at reference 2024-02-20, and the
duplicate-trip invariance for the first of them. -/
theorem claim_C1_witness :
    calculateSchengenDaysUsed
        [⟨daysFromCivil 2024 2 1, some (daysFromCivil 2024 2 10), true⟩,
         ⟨daysFromCivil 2024 2 5, some (daysFromCivil 2024 2 20), true⟩]
        (daysFromCivil 2024 2 20) =
      (coveredDates
        [⟨daysFromCivil 2024 2 1, some (daysFromCivil 2024 2 10), true⟩,
         ⟨daysFromCivil 2024 2 5, some (daysFromCivil 2024 2 20), true⟩]
        (daysFromCivil 2024 2 20)).card ∧
    calculateSchengenDaysUsed
        (⟨daysFromCivil 2024 2 1, some (daysFromCivil 2024 2 10), true⟩ ::
         [⟨daysFromCivil 2024 2 1, some (daysFromCivil 2024 2 10), true⟩,
          ⟨daysFromCivil 2024 2 5, some (daysFromCivil 2024 2 20), true⟩])
        (daysFromCivil 2024 2 20) =
      calculateSchengenDaysUsed
        [⟨daysFromCivil 2024 2 1, some (daysFromCivil 2024 2 10), true⟩,
         ⟨daysFromCivil 2024 2 5, some (daysFromCivil 2024 2 20), true⟩]
        (daysFromCivil 2024 2 20) :=
  ⟨(claim_C1_daysUsed_union_count _ _).1,
   (claim_C1_daysUsed_union_count _ _).2.2 _ (List.mem_cons_self _ _) rfl⟩

/-- C5: a trip with no `endDate` has its effective end at the reference
date: every day it contributes is ≤ the reference date, and when it has
started by the reference date its contributed set is exactly the days from
`max startDate windowStart` up to and including the reference date; the
spec's Scenario C (open-ended Schengen trip starting 2024-03-01, reference
2024-03-05) yields `daysUsed = 5`. -/
theorem claim_C5_open_ended_trip (t : Trip) (ref : Int)
    (hopen : t.endDate = none) :
    (∀ d ∈ tripDaysInWindow ref t, d ≤ ref) ∧
    (t.startDate ≤ ref →
      tripDaysInWindow ref t = Finset.Icc (max t.startDate (ref - 179)) ref) ∧
    calculateSchengenDaysUsed [⟨daysFromCivil 2024 3 1, none, true⟩]
      (daysFromCivil 2024 3 5) = 5 := by
  refine ⟨?_, ?_, ?_⟩
  · intro d hd
    rw [mem_tripDaysInWindow] at hd
    exact hd.2.2.2
  · intro hle
    ext d
    rw [mem_tripDaysInWindow]
    simp only [hopen, Option.getD_none, Finset.mem_Icc, max_le_iff]
    omega
  · decide

/-- Witness for C5: the open-ended Scenario C trip itself. -/
theorem claim_C5_witness :
    (∀ d ∈ tripDaysInWindow (daysFromCivil 2024 3 5)
        ⟨daysFromCivil 2024 3 1, none, true⟩, d ≤ daysFromCivil 2024 3 5) ∧
    calculateSchengenDaysUsed [⟨daysFromCivil 2024 3 1, none, true⟩]
      (daysFromCivil 2024 3 5) = 5 :=
  ⟨(claim_C5_open_ended_trip ⟨daysFromCivil 2024 3 1, none, true⟩
      (daysFromCivil 2024 3 5) rfl).1,
   (claim_C5_open_ended_trip ⟨daysFromCivil 2024 3 1, none, true⟩
      (daysFromCivil 2024 3 5) rfl).2.2⟩

/-- C6: `calculateRemainingSchengenDays` equals
`max 0 (90 - daysUsed)`, is never negative, and never exceeds 90. -/
theorem claim_C6_remaining_days (trips : List Trip) (ref : Int) :
    calculateRemainingSchengenDays trips ref =
      max 0 (90 - (calculateSchengenDaysUsed trips ref : Int)) ∧
    0 ≤ calculateRemainingSchengenDays trips ref ∧
    calculateRemainingSchengenDays trips ref ≤ 90 := by
  unfold calculateRemainingSchengenDays
  refine ⟨rfl, le_max_left _ _, ?_⟩
  have h : (0 : Int) ≤ (calculateSchengenDaysUsed trips ref : Int) :=
    Int.natCast_nonneg _
  exact max_le (by norm_num) (by omega)

/-- C7: a trip whose `endDate` precedes its `startDate` contributes an empty
clipped range (zero days), and the overall count equals the count with that
trip removed, wherever it sits in the list. -/
theorem claim_C7_reversed_range_trip (t : Trip) (e : Int)
    (he : t.endDate = some e) (hrev : e < t.startDate)
    (l1 l2 : List Trip) (ref : Int) :
    tripDaysInWindow ref t = ∅ ∧
    calculateSchengenDaysUsed (l1 ++ t :: l2) ref =
      calculateSchengenDaysUsed (l1 ++ l2) ref := by
  have hempty : tripDaysInWindow ref t = ∅ := by
    ext d
    simp only [mem_tripDaysInWindow, he, Option.getD_some,
      Finset.not_mem_empty, iff_false]
    omega
  refine ⟨hempty, ?_⟩
  rw [daysUsed_eq_card, daysUsed_eq_card]
  congr 1
  ext d
  rw [mem_foldUnion, mem_foldUnion]
  simp only [Finset.not_mem_empty, false_or, List.mem_filter,
    List.mem_append, List.mem_cons]
  constructor
  · rintro ⟨u, ⟨hu | hu | hu, hsu⟩, hd⟩
    · exact ⟨u, ⟨.inl hu, hsu⟩, hd⟩
    · rw [hu, hempty] at hd
      exact absurd hd (Finset.not_mem_empty d)
    · exact ⟨u, ⟨.inr hu, hsu⟩, hd⟩
  · rintro ⟨u, ⟨hu | hu, hsu⟩, hd⟩
    · exact ⟨u, ⟨.inl hu, hsu⟩, hd⟩
    · exact ⟨u, ⟨.inr (.inr hu), hsu⟩, hd⟩

/-- Witness for C7: a reversed-range Schengen trip (2024-01-10 ends
2024-01-05) appended after a normal trip contributes nothing. -/
theorem claim_C7_witness :
    tripDaysInWindow (daysFromCivil 2024 1 15)
        ⟨daysFromCivil 2024 1 10, some (daysFromCivil 2024 1 5), true⟩ = ∅ ∧
    calculateSchengenDaysUsed
        ([⟨daysFromCivil 2024 1 1, some (daysFromCivil 2024 1 3), true⟩] ++
          ⟨daysFromCivil 2024 1 10, some (daysFromCivil 2024 1 5), true⟩ :: [])
        (daysFromCivil 2024 1 15) =
      calculateSchengenDaysUsed
        ([⟨daysFromCivil 2024 1 1, some (daysFromCivil 2024 1 3), true⟩] ++ [])
        (daysFromCivil 2024 1 15) :=
  claim_C7_reversed_range_trip _ _ rfl (by decide) _ _ _

/-! ## Claims C8, C9 -/

/-- C8: `calculateRemainingDays` returns `null` for a missing duration or one
not matching the pattern "<integer> (day|days|month|months)"
(case-insensitively); a month unit converts at 30 days per month; with
`visaEnd = startDate + totalDays` it returns 0 once the reference day has
passed `visaEnd`, the full `totalDays` before `startDate`, and otherwise the
day-distance `daysBetween referenceDate visaEnd`; the spec's Scenario D
("90 days" from 2024-01-01) yields 90 at reference 2024-01-01 and 0 at
2024-04-15. -/
theorem claim_C8_duration_remaining (startDate today : Int) (dur : String) :
    calculateRemainingDays startDate none today = none ∧
    (findDurationMatch dur.data = none →
      calculateRemainingDays startDate (some dur) today = none) ∧
    (∀ amount : Nat, findDurationMatch dur.data = some (amount, false) →
      ((today > startDate + (amount : Int) →
        calculateRemainingDays startDate (some dur) today = some 0) ∧
       (today < startDate →
        calculateRemainingDays startDate (some dur) today = some (amount : Int)) ∧
       (startDate ≤ today → today ≤ startDate + (amount : Int) →
        calculateRemainingDays startDate (some dur) today =
          some (daysBetween today (startDate + (amount : Int)))))) ∧
    (∀ amount : Nat, findDurationMatch dur.data = some (amount, true) →
      ((today > startDate + (amount : Int) * 30 →
        calculateRemainingDays startDate (some dur) today = some 0) ∧
       (today < startDate →
        calculateRemainingDays startDate (some dur) today =
          some ((amount : Int) * 30)) ∧
       (startDate ≤ today → today ≤ startDate + (amount : Int) * 30 →
        calculateRemainingDays startDate (some dur) today =
          some (daysBetween today (startDate + (amount : Int) * 30))))) ∧
    findDurationMatch "6 MONTHS".data = some (6, true) ∧
    calculateRemainingDays (daysFromCivil 2024 1 1) (some "90 days")
      (daysFromCivil 2024 1 1) = some 90 ∧
    calculateRemainingDays (daysFromCivil 2024 1 1) (some "90 days")
      (daysFromCivil 2024 4 15) = some 0 := by
  refine ⟨rfl, ?_, ?_, ?_, by decide, by decide, by decide⟩
  · intro h
    simp [calculateRemainingDays, h]
  · intro amount h
    refine ⟨fun h1 => ?_, fun h1 => ?_, fun h1 h2 => ?_⟩ <;>
      simp only [calculateRemainingDays, h, Bool.false_eq_true, if_false,
        daysBetween]
    · rw [if_pos h1]
    · rw [if_neg (by omega), if_pos h1]
    · rw [if_neg (by omega), if_neg (by omega)]
  · intro amount h
    refine ⟨fun h1 => ?_, fun h1 => ?_, fun h1 h2 => ?_⟩ <;>
      simp only [calculateRemainingDays, h, if_true, daysBetween]
    · rw [if_pos h1]
    · rw [if_neg (by omega), if_pos h1]
    · rw [if_neg (by omega), if_neg (by omega)]

/-- Witness for C8: concrete evaluations through the theorem — Scenario D's
two values, an unparseable duration, and a months-unit duration checked
before arrival. -/
theorem claim_C8_witness :
    calculateRemainingDays 0 (some "open ended") 0 = none ∧
    calculateRemainingDays 10 (some "2 months") 5 = some ((2 : Nat) * 30) ∧
    calculateRemainingDays (daysFromCivil 2024 1 1) (some "90 days")
      (daysFromCivil 2024 1 1) = some 90 ∧
    calculateRemainingDays (daysFromCivil 2024 1 1) (some "90 days")
      (daysFromCivil 2024 4 15) = some 0 :=
  ⟨(claim_C8_duration_remaining 0 0 "open ended").2.1 (by decide),
   ((claim_C8_duration_remaining 10 5 "2 months").2.2.2.1 2
      (by decide)).2.1 (by decide),
   (claim_C8_duration_remaining 0 0 "x").2.2.2.2.2.1,
   (claim_C8_duration_remaining 0 0 "x").2.2.2.2.2.2⟩

lemma isPrefixOf_self (l : List Char) : List.isPrefixOf l l = true := by
  induction l with
  | nil => rfl
  | cons c cs ih => simp [List.isPrefixOf, ih]

lemma listIncludes_refl (l : List Char) : listIncludes l l = true := by
  cases l with
  | nil => rfl
  | cons c cs =>
    unfold listIncludes
    rw [isPrefixOf_self, Bool.true_or]

lemma data_ne_nil_of_ne_empty {s : String} (h : s ≠ "") : s.data ≠ [] := by
  intro hd
  apply h
  cases s with
  | mk data =>
    cases hd
    rfl

lemma lookup_filter_eq (table : List (String × String))
    (hcodes : ∀ p ∈ table, p.2 ≠ "") (key : List Char) :
    (lookupCode table key).filter (fun c => !c.data.isEmpty) =
      lookupCode table key := by
  unfold lookupCode
  cases hf : table.find? (fun p => p.1.data == key) with
  | none => rfl
  | some p =>
    have hp : p ∈ table := List.mem_of_find?_eq_some hf
    have hne : p.2.data ≠ [] := data_ne_nil_of_ne_empty (hcodes p hp)
    simp [Option.filter_some, List.isEmpty_iff, hne]

/-- C9: `getCountryCode` resolves names in exactly the order of the spec:
exact table lookup, exact lookup of the trimmed tail after the last comma,
first case-insensitive substring match in either direction, then the first
two characters uppercased — provided the table's codes are non-empty (they
are two-letter codes).  Totality (it always returns a string, for every
input) is inherent: both sides are total functions. -/
theorem claim_C9_resolution_order (table : List (String × String))
    (countryName : String) (hcodes : ∀ p ∈ table, p.2 ≠ "") :
    getCountryCode table countryName = resolveCountrySpec table countryName := by
  unfold getCountryCode resolveCountrySpec
  dsimp only
  rw [lookup_filter_eq table hcodes, lookup_filter_eq table hcodes]
  have hpred : (fun (p : String × String) =>
        jsToLower p.1.data == jsToLower countryName.data ||
        listIncludes (jsToLower countryName.data) (jsToLower p.1.data) ||
        listIncludes (jsToLower p.1.data) (jsToLower countryName.data)) =
      (fun (p : String × String) =>
        listIncludes (jsToLower countryName.data) (jsToLower p.1.data) ||
        listIncludes (jsToLower p.1.data) (jsToLower countryName.data)) := by
    funext p
    cases hb : (jsToLower p.1.data == jsToLower countryName.data) with
    | false => rw [Bool.false_or]
    | true =>
      have heq : jsToLower p.1.data = jsToLower countryName.data := eq_of_beq hb
      rw [Bool.true_or, heq, listIncludes_refl, Bool.true_or]
  rw [hpred]

/-- Witness for C9: a concrete two-entry table with non-empty codes and a
"City, Country" input. -/
theorem claim_C9_witness :
    getCountryCode [("France", "FR"), ("United States", "US")] "Paris, France" =
      resolveCountrySpec [("France", "FR"), ("United States", "US")]
        "Paris, France" ∧
    getCountryCode [("France", "FR"), ("United States", "US")] "Paris, France" =
      "FR" :=
  ⟨claim_C9_resolution_order _ _ (by decide), by decide⟩

/-! ## Claims C2, C3, C4, C10: visa cache gateway -/

lemma storeGet_upsert_self {α : Type} (st : CacheStore α) (p d : String)
    (e : CacheEntry α) : storeGet (storeUpsert st p d e) p d = some e := by
  unfold storeGet storeUpsert
  simp [List.find?]

/-- C2: the cache read of `check`: an existing entry with `now < expiresAt`
is returned as a hit with the store untouched; an existing entry with
`now ≥ expiresAt` is deleted (eager eviction) and the read reports a miss;
and an entry written at time `T` is a hit for every lookup time `T'` with
`T ≤ T' < T + 30 days` and a miss (with eviction) for `T' ≥ T + 30 days`. -/
theorem claim_C2_cache_ttl {α : Type} (st : CacheStore α) (p d : String)
    (now : Int) :
    (∀ e : CacheEntry α, storeGet st p d = some e → now < e.expiresAt →
      getCachedData now st p d = (some e.responseData, st)) ∧
    (∀ e : CacheEntry α, storeGet st p d = some e → now ≥ e.expiresAt →
      getCachedData now st p d = (none, storeDelete st p d)) ∧
    (∀ (data : α) (T T' : Int), T ≤ T' → T' < T + cacheTtlMs →
      getCachedData T' (setCachedData T true st p d data) p d =
        (some data, setCachedData T true st p d data)) ∧
    (∀ (data : α) (T T' : Int), T' ≥ T + cacheTtlMs →
      getCachedData T' (setCachedData T true st p d data) p d =
        (none, storeDelete (setCachedData T true st p d data) p d)) := by
  refine ⟨?_, ?_, ?_, ?_⟩
  · intro e he hfresh
    unfold getCachedData
    rw [he]
    dsimp only
    rw [if_neg (not_le.mpr hfresh)]
  · intro e he hstale
    unfold getCachedData
    rw [he]
    dsimp only
    rw [if_pos hstale]
  · intro data T T' hle hfresh
    unfold getCachedData setCachedData
    rw [if_pos rfl, storeGet_upsert_self]
    dsimp only
    rw [if_neg (by omega)]
  · intro data T T' hstale
    unfold getCachedData setCachedData
    rw [if_pos rfl, storeGet_upsert_self]
    dsimp only
    rw [if_pos (by omega)]

/-- Witness for C2: a concrete entry expiring at 100 is a hit at time 50; a
concrete write at time 0 is a hit at time 100 and an evicting miss at
exactly the 30-day TTL boundary. -/
theorem claim_C2_witness :
    getCachedData 50 [(("US", "FR"), ⟨"payload", 0, 100⟩)] "US" "FR" =
      (some "payload", [(("US", "FR"), (⟨"payload", 0, 100⟩ : CacheEntry String))]) ∧
    getCachedData 100 (setCachedData 0 true ([] : CacheStore String) "US" "FR" "fresh")
        "US" "FR" =
      (some "fresh", setCachedData 0 true [] "US" "FR" "fresh") ∧
    getCachedData (0 + cacheTtlMs)
        (setCachedData 0 true ([] : CacheStore String) "US" "FR" "fresh")
        "US" "FR" =
      (none, storeDelete (setCachedData 0 true [] "US" "FR" "fresh") "US" "FR") :=
  ⟨(claim_C2_cache_ttl _ "US" "FR" 50).1 ⟨"payload", 0, 100⟩ (by decide)
      (by decide),
   (claim_C2_cache_ttl _ "US" "FR" 100).2.2.1 "fresh" 0 100 (by decide)
      (by decide),
   (claim_C2_cache_ttl ([] : CacheStore String) "US" "FR" 0).2.2.2 "fresh" 0
      (0 + cacheTtlMs) (by decide)⟩

/-- C3: on a cache miss, `check` makes exactly one external call and one
upsert of the fresh payload under the resolved code pair, returns the fresh
payload, and a second `check` for the same pair within the TTL makes zero
external calls and returns the cached payload. -/
theorem claim_C3_miss_then_hit {α : Type} (table : List (String × String))
    (k : String) (external : String → String → ApiResult α) (now : Int)
    (st : CacheStore α) (pn dn : String) (data : α)
    (hmiss : (getCachedData now st (getCountryCode table pn)
        (getCountryCode table dn)).1 = none)
    (hext : external (getCountryCode table pn) (getCountryCode table dn) =
        ApiResult.ok data) :
    (checkVisaRequirements table (some k) external now true st pn dn).result =
        Except.ok data ∧
    (checkVisaRequirements table (some k) external now true st pn dn).externalCalls = 1 ∧
    (checkVisaRequirements table (some k) external now true st pn dn).upserts = 1 ∧
    storeGet (checkVisaRequirements table (some k) external now true st pn dn).store
        (getCountryCode table pn) (getCountryCode table dn) =
      some ⟨data, now, now + cacheTtlMs⟩ ∧
    (∀ (now' : Int) (wOk' : Bool), now ≤ now' → now' < now + cacheTtlMs →
      (checkVisaRequirements table (some k) external now' wOk'
          (checkVisaRequirements table (some k) external now true st pn dn).store
          pn dn).result = Except.ok data ∧
      (checkVisaRequirements table (some k) external now' wOk'
          (checkVisaRequirements table (some k) external now true st pn dn).store
          pn dn).externalCalls = 0) := by
  cases hgc : getCachedData now st (getCountryCode table pn)
      (getCountryCode table dn) with
  | mk r st1 =>
    rw [hgc] at hmiss
    simp only at hmiss
    subst hmiss
    have hout : checkVisaRequirements table (some k) external now true st pn dn =
        ⟨Except.ok data,
          setCachedData now true st1 (getCountryCode table pn)
            (getCountryCode table dn) data, 1, 1⟩ := by
      unfold checkVisaRequirements
      dsimp only
      rw [hgc, hext]
    rw [hout]
    refine ⟨rfl, rfl, rfl, ?_, ?_⟩
    · show storeGet (setCachedData now true st1 _ _ data) _ _ = _
      unfold setCachedData
      rw [if_pos rfl, storeGet_upsert_self]
    · intro now' wOk' h1 h2
      have hget2 : getCachedData now'
          (setCachedData now true st1 (getCountryCode table pn)
            (getCountryCode table dn) data)
          (getCountryCode table pn) (getCountryCode table dn) =
          (some data,
            setCachedData now true st1 (getCountryCode table pn)
              (getCountryCode table dn) data) := by
        unfold getCachedData setCachedData
        rw [if_pos rfl, storeGet_upsert_self]
        dsimp only
        rw [if_neg (by omega)]
      constructor <;>
        · unfold checkVisaRequirements
          dsimp only
          rw [hget2]

/-- Witness for C3: empty table (two-letter fallback codes), empty cache, a
constant external collaborator; the second call half is exercised at
`now' = now`. -/
theorem claim_C3_witness :
    (checkVisaRequirements [] (some "key")
        (fun _ _ => ApiResult.ok "payload") 0 true ([] : CacheStore String)
        "US" "FR").result = Except.ok "payload" ∧
    (checkVisaRequirements [] (some "key")
        (fun _ _ => ApiResult.ok "payload") 0 true ([] : CacheStore String)
        "US" "FR").externalCalls = 1 ∧
    (checkVisaRequirements [] (some "key")
        (fun _ _ => ApiResult.ok "payload") 0 false
        (checkVisaRequirements [] (some "key")
          (fun _ _ => ApiResult.ok "payload") 0 true ([] : CacheStore String)
          "US" "FR").store
        "US" "FR").externalCalls = 0 :=
  ⟨(claim_C3_miss_then_hit [] "key" (fun _ _ => ApiResult.ok "payload") 0 []
      "US" "FR" "payload" (by decide) rfl).1,
   (claim_C3_miss_then_hit [] "key" (fun _ _ => ApiResult.ok "payload") 0 []
      "US" "FR" "payload" (by decide) rfl).2.1,
   ((claim_C3_miss_then_hit [] "key" (fun _ _ => ApiResult.ok "payload") 0 []
      "US" "FR" "payload" (by decide) rfl).2.2.2.2 0 false (by decide)
      (by decide)).2⟩

/-- C4: `check` surfaces errors as distinguishable failures and never caches
them: with no API key configured the call fails with a configuration error
having made zero external calls; a non-2xx status from the external lookup
maps through the `if/else` chain (401 → invalid credential, 404 → no data,
422 → invalid input, other → generic error carrying the status), and in
every error case zero cache upserts occur and the store is exactly what the
cache read left behind. -/
theorem claim_C4_error_mapping {α : Type} (table : List (String × String))
    (k : String) (external : String → String → ApiResult α) (now : Int)
    (writeOk : Bool) (st : CacheStore α) (pn dn : String)
    (hmiss : (getCachedData now st (getCountryCode table pn)
        (getCountryCode table dn)).1 = none) :
    ((checkVisaRequirements table none external now writeOk st pn dn).result =
        Except.error CheckError.configError ∧
     (checkVisaRequirements table none external now writeOk st pn dn).externalCalls = 0 ∧
     (checkVisaRequirements table none external now writeOk st pn dn).upserts = 0) ∧
    (∀ status : Nat,
      external (getCountryCode table pn) (getCountryCode table dn) =
          ApiResult.httpError status →
      ((checkVisaRequirements table (some k) external now writeOk st pn dn).result =
          Except.error (mapHttpError status) ∧
       (checkVisaRequirements table (some k) external now writeOk st pn dn).upserts = 0 ∧
       (checkVisaRequirements table (some k) external now writeOk st pn dn).store =
         (getCachedData now st (getCountryCode table pn)
           (getCountryCode table dn)).2)) ∧
    mapHttpError 401 = CheckError.invalidApiKey ∧
    mapHttpError 404 = CheckError.noData ∧
    mapHttpError 422 = CheckError.invalidInput ∧
    (∀ status : Nat, status ≠ 401 → status ≠ 404 → status ≠ 422 →
      mapHttpError status = CheckError.apiError status) := by
  cases hgc : getCachedData now st (getCountryCode table pn)
      (getCountryCode table dn) with
  | mk r st1 =>
    rw [hgc] at hmiss
    simp only at hmiss
    subst hmiss
    refine ⟨?_, ?_, rfl, rfl, rfl, ?_⟩
    · have hout : checkVisaRequirements table none external now writeOk st pn dn =
          ⟨Except.error CheckError.configError, st1, 0, 0⟩ := by
        unfold checkVisaRequirements
        dsimp only
        rw [hgc]
      rw [hout]
      exact ⟨rfl, rfl, rfl⟩
    · intro status hext
      have hout : checkVisaRequirements table (some k) external now writeOk st pn dn =
          ⟨Except.error (mapHttpError status), st1, 1, 0⟩ := by
        unfold checkVisaRequirements
        dsimp only
        rw [hgc, hext]
      rw [hout]
      exact ⟨rfl, rfl, rfl⟩
    · intro status h1 h2 h3
      unfold mapHttpError
      rw [if_neg h1, if_neg h2, if_neg h3]

/-- Witness for C4: empty table and cache, an external collaborator that
always answers HTTP 500; the generic mapping is exercised at status 500. -/
theorem claim_C4_witness :
    (checkVisaRequirements [] (some "key")
        (fun _ _ => ApiResult.httpError 500) 0 true ([] : CacheStore String)
        "US" "FR").result = Except.error (CheckError.apiError 500) ∧
    (checkVisaRequirements [] (some "key")
        (fun _ _ => ApiResult.httpError 500) 0 true ([] : CacheStore String)
        "US" "FR").upserts = 0 ∧
    (checkVisaRequirements [] none
        (fun _ _ => ApiResult.httpError 500) 0 true ([] : CacheStore String)
        "US" "FR").result = Except.error CheckError.configError ∧
    mapHttpError 500 = CheckError.apiError 500 := by
  have h := claim_C4_error_mapping ([] : List (String × String)) "key"
    (fun _ _ => ApiResult.httpError 500) 0 true ([] : CacheStore String)
    "US" "FR" (by decide)
  have h500 := h.2.1 500 rfl
  exact ⟨h500.1.trans (by rw [h.2.2.2.2.2 500 (by decide) (by decide) (by decide)]),
    h500.2.1, h.1.1,
    h.2.2.2.2.2 500 (by decide) (by decide) (by decide)⟩

/-- C10: a failed cache write is swallowed — after a successful external
lookup, `check` still returns the fresh payload even when the upsert fails
(the store is left exactly as the cache read left it), and it raises
nothing. -/
theorem claim_C10_write_failure_swallowed {α : Type}
    (table : List (String × String)) (k : String)
    (external : String → String → ApiResult α) (now : Int)
    (st : CacheStore α) (pn dn : String) (data : α)
    (hmiss : (getCachedData now st (getCountryCode table pn)
        (getCountryCode table dn)).1 = none)
    (hext : external (getCountryCode table pn) (getCountryCode table dn) =
        ApiResult.ok data) :
    (checkVisaRequirements table (some k) external now false st pn dn).result =
        Except.ok data ∧
    (checkVisaRequirements table (some k) external now false st pn dn).store =
      (getCachedData now st (getCountryCode table pn)
        (getCountryCode table dn)).2 := by
  cases hgc : getCachedData now st (getCountryCode table pn)
      (getCountryCode table dn) with
  | mk r st1 =>
    rw [hgc] at hmiss
    simp only at hmiss
    subst hmiss
    have hout : checkVisaRequirements table (some k) external now false st pn dn =
        ⟨Except.ok data, setCachedData now false st1 (getCountryCode table pn)
          (getCountryCode table dn) data, 1, 1⟩ := by
      unfold checkVisaRequirements
      dsimp only
      rw [hgc, hext]
    rw [hout]
    exact ⟨rfl, rfl⟩

/-- Witness for C10: the failed write leaves the empty cache empty while the
fresh payload is still returned. -/
theorem claim_C10_witness :
    (checkVisaRequirements [] (some "key")
        (fun _ _ => ApiResult.ok "payload") 0 false ([] : CacheStore String)
        "US" "FR").result = Except.ok "payload" ∧
    (checkVisaRequirements [] (some "key")
        (fun _ _ => ApiResult.ok "payload") 0 false ([] : CacheStore String)
        "US" "FR").store = ([] : CacheStore String) :=
  ⟨(claim_C10_write_failure_swallowed [] "key"
      (fun _ _ => ApiResult.ok "payload") 0 [] "US" "FR" "payload"
      (by decide) rfl).1,
   (claim_C10_write_failure_swallowed [] "key"
      (fun _ _ => ApiResult.ok "payload") 0 [] "US" "FR" "payload"
      (by decide) rfl).2⟩

end VisaStay
